import Mathlib

/-!
Verification of the streaming progress classifier of `src/cli/src/ui/spinner.ts`
(the concatenation of the spinner UI, the base engine helpers and the
`OpenCodeEngine`).

The per-line classifiers consume the result of `JSON.parse` applied to a raw
output line.  Parsed JSON values are modelled by the inductive type `Json`
below; numbers are modelled as integers (no claim depends on non-integral
numbers).  `JSON.parse` itself is a collaborator: each classifier takes, next
to the raw line text, the parse result as an `Option Json` (`none` when
`JSON.parse` throws).  A JavaScript `TypeError` raised while probing a parsed
value (for example calling `.toLowerCase()` on a number, or reading a property
of `null`) is modelled by `Except Unit`: `.error ()` stands for a thrown
exception, which the enclosing `try/catch` of the source converts to `null`.
-/

set_option autoImplicit false

inductive Json where
  | null : Json
  | bool : Bool → Json
  | num : Int → Json
  | str : String → Json
  | arr : List Json → Json
  | obj : List (String × Json) → Json

/-- JS truthiness of a parse-derived value (`NaN` cannot occur: numbers are
integers; `undefined` is represented as `Option.none` at use sites). -/
def Json.truthy : Json → Bool
  | .null => false
  | .bool b => b
  | .num n => n != 0
  | .str s => s != ""
  | .arr _ => true
  | .obj _ => true

/-- Field lookup in a parsed JSON object, first match wins (a parse result
never carries duplicate keys). -/
def lookupField : List (String × Json) → String → Option Json
  | [], _ => none
  | (k, v) :: rest, key => if k = key then some v else lookupField rest key

/-- JS property access `v[key]`: reading a property of `null` throws; reading
a missing property (or any property of a primitive) yields `undefined`,
modelled as `none`. -/
def getProp : Json → String → Except Unit (Option Json)
  | .null, _ => .error ()
  | .obj fs, k => .ok (lookupField fs k)
  | _, _ => .ok none

/-- JS optional-chained property access `v?.[key]` on a possibly-undefined
value: `undefined` and `null` short-circuit to `undefined`. -/
def optProp (v : Option Json) (k : String) : Except Unit (Option Json) :=
  match v with
  | none => .ok none
  | some .null => .ok none
  | some x => getProp x k

/-- Pure variant of `getProp` for call sites where the receiver is known not
to be `null`. -/
def propOf : Json → String → Option Json
  | .obj fs, k => lookupField fs k
  | _, _ => none

/-- Pure variant of `optProp` (never throws: `null` receivers short-circuit,
primitives have no such property). -/
def optPropOf (v : Option Json) (k : String) : Option Json :=
  match v with
  | none => none
  | some .null => none
  | some x => propOf x k

/-- ASCII lower-casing of one character, as `String.prototype.toLowerCase`
acts on ASCII (no claim involves non-ASCII case mapping). -/
def jsLowerChar (c : Char) : Char :=
  if 'A' ≤ c ∧ c ≤ 'Z' then Char.ofNat (c.toNat + 32) else c

/-- The `String.prototype.toLowerCase` on a string value. -/
def jsLower (s : String) : String := ⟨s.data.map jsLowerChar⟩

/-- JS `v.toLowerCase()`: throws a `TypeError` unless `v` is a string. -/
def jsToLowerCase : Json → Except Unit String
  | .str s => .ok (jsLower s)
  | _ => .error ()

/-- JS strict string equality test `v === lit` for a possibly-undefined value. -/
def isStrVal (v : Option Json) (lit : String) : Bool :=
  match v with
  | some (.str t) => t = lit
  | _ => false

/-- The `v || d` on a possibly-undefined value: the value if truthy, else `d`. -/
def jsOrDefault (v : Option Json) (d : Json) : Json :=
  match v with
  | some x => if x.truthy then x else d
  | none => d

/-- JS truthiness of a possibly-undefined value (`undefined` is falsy). -/
def truthyOpt (v : Option Json) : Bool :=
  match v with
  | some x => x.truthy
  | none => false

/-- A value used where the source subsequently calls string methods on it
(`.slice`, `.split`, `.toLowerCase`): non-strings throw a `TypeError`. -/
def jsonAsString : Json → Except Unit String
  | .str s => .ok s
  | _ => .error ()

/-- JS `String(v)` conversion of a parse-derived value. -/
def jsToString : Json → String
  | .null => "null"
  | .bool b => if b then "true" else "false"
  | .num n => toString n
  | .str s => s
  | .arr xs => jsToStringArr xs
  | .obj _ => "[object Object]"
where
  /-- The `Array.prototype.toString`: elements joined by a comma, `null` elements
  contributing the empty string. -/
  jsToStringArr : List Json → String
  | [] => ""
  | [x] => jsToStringElem x
  | x :: y :: xs => jsToStringElem x ++ "," ++ jsToStringArr (y :: xs)
  jsToStringElem : Json → String
  | .null => ""
  | .bool b => if b then "true" else "false"
  | .num n => toString n
  | .str s => s
  | .arr xs => jsToStringArr xs
  | .obj _ => "[object Object]"

/-- The truthiness-chained, lower-cased property extraction
`parsed.k1?.toLowerCase() || parsed.k2?.toLowerCase() || ... || ""`
used for tool names and commands in `detectStepFromOutput`. -/
def firstTruthyLower (parsed : Json) : List String → Except Unit String
  | [] => .ok ""
  | k :: rest => do
    match ← getProp parsed k with
    | none => firstTruthyLower parsed rest
    | some .null => firstTruthyLower parsed rest
    | some v => do
      let s ← jsToLowerCase v
      if s = "" then firstTruthyLower parsed rest else .ok s

/-- The truthiness chain `parsed.k1 || parsed.k2 || ... || ""` over raw
values, as used for file paths and descriptions. -/
def firstTruthyProp (parsed : Json) : List String → Except Unit Json
  | [] => .ok (Json.str "")
  | k :: rest => do
    match ← getProp parsed k with
    | some v => if v.truthy then .ok v else firstTruthyProp parsed rest
    | none => firstTruthyProp parsed rest

/-- JS `String.prototype.slice(0, n)` (code points; claims involve no
surrogate pairs). -/
def strTake (s : String) (n : Nat) : String := ⟨s.data.take n⟩

/-- JS `String.prototype.includes` as a substring test. -/
def listStartsWith : List Char → List Char → Bool
  | [], _ => true
  | _ :: _, [] => false
  | p :: ps, x :: xs => p = x && listStartsWith ps xs

def strContainsAux (pat : List Char) : List Char → Bool
  | [] => listStartsWith pat []
  | x :: xs => listStartsWith pat (x :: xs) || strContainsAux pat xs

def strContains (s pat : String) : Bool := strContainsAux pat.data s.data

/-- JS `String.prototype.split(sep)` for a one-character separator. -/
def splitCharAux (c : Char) : List Char → List Char → List String
  | [], acc => [⟨acc.reverse⟩]
  | x :: xs, acc =>
    if x = c then ⟨acc.reverse⟩ :: splitCharAux c xs []
    else splitCharAux c xs (x :: acc)

def splitChar (c : Char) (s : String) : List String := splitCharAux c s.data []

def isJsWhitespace (c : Char) : Bool :=
  c = ' ' || c = '\t' || c = '\n' || c = '\r'

/-- JS `String.prototype.trim` (ASCII whitespace; no claim involves Unicode
space characters). -/
def jsTrim (s : String) : String :=
  ⟨((s.data.dropWhile isJsWhitespace).reverse.dropWhile isJsWhitespace).reverse⟩

/-- Whether the trimmed line starts with the object-opening character, the
cheap pre-filter both classifiers apply before parsing. -/
def startsWithBrace (s : String) : Bool :=
  match s.data with
  | c :: _ => c = '\x7b'
  | [] => false

/-- JS `Array.prototype.join(sep)` over strings. -/
def joinWith (sep : String) : List String → String
  | [] => ""
  | [x] => x
  | x :: y :: xs => x ++ sep ++ joinWith sep (y :: xs)

/-- JS `Array.prototype.slice(-n)`: the last `n` elements. -/
def lastN {α : Type} (n : Nat) (l : List α) : List α := l.drop (l.length - n)

/-! Section: Data model (`src/cli/src/engines/types.ts` as used by the classifier) -/

/-- A todo entry as the tracker actually stores it: `id` and `content` pass
through JS `String(...)` conversion (so they are strings), while `status` is
whatever truthy value the payload carried, or the string `pending` — the
source's type ascription on `status` is a compile-time cast with no runtime
validation, so the model keeps the raw value. -/
structure TodoItem where
  id : String
  content : String
  status : Json

structure DiffInfo where
  filePath : String
  startLine : Option Nat
  oldLines : Option (List String)
  newLines : Option (List String)

structure StepInfo where
  step : String
  toolOutput : Option String
  diff : Option DiffInfo
  todos : Option (List TodoItem)

/-- The aggregated terminal result.  Token counts and the error message hold
whatever runtime values the source stores (numbers or arbitrary extracted
JSON values), so they are modelled as `Json`. -/
structure AIResult where
  success : Bool
  response : String
  inputTokens : Json
  outputTokens : Json
  cost : Option String
  error : Option Json

/-! Section: Helpers from `base.ts` -/

/-- The `truncate` of `base.ts` (identical to `OpenCodeEngine.truncate`): cut to
`maxLen - 3` characters and append an ellipsis when too long. -/
def truncate (s : String) (maxLen : Nat) : String :=
  if s.length ≤ maxLen then s else strTake s (maxLen - 3) ++ "..."

/-- The `formatFilePath` of `base.ts`. -/
def formatFilePath (filePath : String) : String := truncate filePath 60

/-- The `formatCommand` of `base.ts`. -/
def formatCommand (command : String) : String := "Running: " ++ truncate command 50

/-- The `isTestFile` of `base.ts` (note the `_test.go` marker, which the
`OpenCodeEngine` copy lacks). -/
def isTestFile (filePath : String) : Bool :=
  let lower := jsLower filePath
  strContains lower ".test." || strContains lower ".spec." ||
    strContains lower "__tests__" || strContains lower "_test.go"

/-- The `formatCommandError` of `base.ts`: synthesize a failure message from the
exit code and the last 12 non-empty output lines. -/
def formatCommandError (exitCode : Int) (output : String) : String :=
  let trimmed := jsTrim output
  if trimmed = "" then "Command failed with exit code " ++ toString exitCode
  else
    let lines := (splitChar '\n' trimmed).filter (fun l => l ≠ "")
    let snippet := joinWith "\n" (lastN 12 lines)
    "Command failed with exit code " ++ toString exitCode ++ ". Output:\n" ++ snippet

/-- The normalized tuple `extractToolFromClaudeFormat` returns. -/
structure ClaudeTool where
  toolName : String
  filePath : String
  command : String

/-- The loop of `extractToolFromClaudeFormat` over `message.content`: the
first `tool_use` item with a truthy name wins. -/
def findToolUse : List Json → Except Unit (Option ClaudeTool)
  | [] => .ok none
  | item :: rest => do
    let ty ← getProp item "type"
    let nm ← getProp item "name"
    if isStrVal ty "tool_use" && truthyOpt nm then do
      let toolName ← jsToLowerCase (nm.getD Json.null)
      let input := jsOrDefault (← getProp item "input") (Json.obj [])
      let filePath ← jsToLowerCase (← firstTruthyProp input ["file_path", "path"])
      let command ← jsToLowerCase (← firstTruthyProp input ["command"])
      .ok (some ⟨toolName, filePath, command⟩)
    else findToolUse rest

/-- The `extractToolFromClaudeFormat` of `base.ts`. -/
def extractToolFromClaudeFormat (parsed : Json) : Except Unit (Option ClaudeTool) := do
  let ty ← getProp parsed "type"
  if !isStrVal ty "assistant" then .ok none
  else do
    let message ← getProp parsed "message"
    match ← optProp message "content" with
    | none => .ok none
    | some c =>
      if !c.truthy then .ok none
      else
        match c with
        | .arr items => findToolUse items
        | _ => .ok none

/-- The lazily evaluated `claudeTool?.command || parsed.command || ""` used
for the command echo: only forced inside the Linting / Testing / Running
branches.  A truthy non-string top-level `command` throws once forced (in the
source, inside `truncate`'s `.slice`). -/
def rawParsedCommand (parsed : Json) : Except Unit String := do
  match ← getProp parsed "command" with
  | some x => if x.truthy then jsonAsString x else .ok ""
  | none => .ok ""

def rawCommandOf (claudeTool : Option ClaudeTool) (parsed : Json) : Except Unit String :=
  match claudeTool with
  | some ct => if ct.command = "" then rawParsedCommand parsed else .ok ct.command
  | none => rawParsedCommand parsed

/-- The classification stage of `detectStepFromOutput` (its body after the
normalized tuple `toolName / filePath / command / description` is extracted);
the nested bash block of the source is flattened into one `if` chain with the
enclosing `isBashOperation || command` condition distributed over its arms. -/
def classifyFromOutput (toolName filePath command description : String)
    (rawCommand : Except Unit String) : Except Unit (Option StepInfo) :=
  if toolName = "" ∧ command = "" then .ok none
  else
    let isReadOperation := toolName = "read" ∨ toolName = "glob" ∨ toolName = "grep"
    let isWriteOperation := toolName = "write" ∨ toolName = "edit"
    let isBashOperation := toolName = "bash"
    let fpOut : Option String := if filePath = "" then none else some (formatFilePath filePath)
    if isReadOperation then .ok (some ⟨"Reading code", fpOut, none, none⟩)
    else if (isBashOperation ∨ command ≠ "") ∧
        (strContains command "git commit" || strContains description "git commit") = true then
      .ok (some ⟨"Committing", none, none, none⟩)
    else if (isBashOperation ∨ command ≠ "") ∧
        (strContains command "git add" || strContains description "git add") = true then
      .ok (some ⟨"Staging", none, none, none⟩)
    else if (isBashOperation ∨ command ≠ "") ∧
        (strContains command "lint" || strContains command "eslint" ||
          strContains command "biome" || strContains command "prettier") = true then do
      let rc ← rawCommand
      .ok (some ⟨"Linting", if rc = "" then none else some (formatCommand rc), none, none⟩)
    else if (isBashOperation ∨ command ≠ "") ∧
        (strContains command "vitest" || strContains command "jest" ||
          strContains command "bun test" || strContains command "npm test" ||
          strContains command "pytest" || strContains command "go test") = true then do
      let rc ← rawCommand
      .ok (some ⟨"Testing", if rc = "" then none else some (formatCommand rc), none, none⟩)
    else if isBashOperation ∧ command ≠ "" then do
      let rc ← rawCommand
      .ok (some ⟨"Running command", if rc = "" then none else some (formatCommand rc), none, none⟩)
    else if isWriteOperation ∧ isTestFile filePath = true then
      .ok (some ⟨"Writing tests", fpOut, none, none⟩)
    else if isWriteOperation then .ok (some ⟨"Implementing", fpOut, none, none⟩)
    else .ok none

/-- The `detectStepFromOutput` of `base.ts` on a parsed line (inside the
`try`). -/
def detectStepFromOutputCore (parsed : Json) : Except Unit (Option StepInfo) := do
  match ← extractToolFromClaudeFormat parsed with
  | some ct => classifyFromOutput ct.toolName ct.filePath ct.command "" (rawCommandOf (some ct) parsed)
  | none => do
    let toolName ← firstTruthyLower parsed ["tool", "name", "tool_name"]
    let command ← firstTruthyLower parsed ["command"]
    let filePath ← jsToLowerCase (← firstTruthyProp parsed ["file_path", "filePath", "path"])
    let description ← jsToLowerCase (← firstTruthyProp parsed ["description"])
    classifyFromOutput toolName filePath command description (rawCommandOf none parsed)

/-- The `detectStepFromOutput` of `base.ts`: `parsed` is the collaborator
`JSON.parse` applied to `line.trim()` (`none` when it throws); a thrown
`TypeError` while probing the value is caught and yields `null`. -/
def detectStepFromOutput (line : String) (parsed : Option Json) : Option StepInfo :=
  if startsWithBrace (jsTrim line) then
    match parsed with
    | none => none
    | some j =>
      match detectStepFromOutputCore j with
      | .ok r => r
      | .error _ => none
  else none

/-- The `checkForErrors` of `base.ts`, applied to one parsed line (inside the
per-line `try`): the extracted message of an explicit error event. -/
def lineErrorValue (j : Json) : Except Unit (Option Json) := do
  let ty ← getProp j "type"
  if isStrVal ty "error" then do
    let errV ← getProp j "error"
    let m1 ← optProp errV "message"
    let m2 ← getProp j "message"
    .ok (some (jsOrDefault m1 (jsOrDefault m2 (Json.str "Unknown error"))))
  else .ok none

def checkForErrorsLines (parse : String → Option Json) : List String → Option Json
  | [] => none
  | l :: rest =>
    match parse l with
    | none => checkForErrorsLines parse rest
    | some j =>
      match lineErrorValue j with
      | .ok (some m) => some m
      | _ => checkForErrorsLines parse rest

/-- The `checkForErrors` of `base.ts`: scan all non-empty lines for the first
explicit `type: "error"` event; `parse` is the collaborator `JSON.parse`. -/
def checkForErrors (parse : String → Option Json) (output : String) : Option Json :=
  checkForErrorsLines parse ((splitChar '\n' output).filter (fun l => l ≠ ""))

/-! Section: `OpenCodeEngine` (`opencode.ts`) -/

namespace OpenCodeEngine

/-- The `OpenCodeEngine.truncate` (same body as the `base.ts` helper). -/
def truncate (s : String) (maxLen : Nat) : String :=
  if s.length ≤ maxLen then s else strTake s (maxLen - 3) ++ "..."

/-- The `OpenCodeEngine.truncatePath`. -/
def truncatePath (filePath : String) : String := truncate filePath 60

/-- The `OpenCodeEngine.isTestFile`: unlike the `base.ts` `isTestFile`, this copy
has no `_test.go` marker. -/
def isTestFile (filePath : String) : Bool :=
  let lower := jsLower filePath
  strContains lower ".test." || strContains lower ".spec." || strContains lower "__tests__"

/-- The `OpenCodeEngine.createDiff`: bounded before/after preview.  The source
calls it with the default `maxLines = 4`. -/
def createDiff (filePath oldContent newContent : String) (maxLines : Nat) : Option DiffInfo :=
  if newContent = "" ∧ oldContent = "" then none
  else some ⟨filePath, none,
    (if oldContent = "" then none
     else some (((splitChar '\n' oldContent).take maxLines).map (fun l => truncate l 70))),
    (if newContent = "" then none
     else some (((splitChar '\n' newContent).take maxLines).map (fun l => truncate l 70)))⟩

/-- One entry of the todo-write mapping:
`{id: String(t.id || ""), content: String(t.content || ""), status: (t.status) || "pending"}`.
Reading a property of a `null` element throws. -/
def todoFromJson (t : Json) : Except Unit TodoItem := do
  let idv ← getProp t "id"
  let cv ← getProp t "content"
  let sv ← getProp t "status"
  .ok ⟨jsToString (jsOrDefault idv (Json.str "")),
       jsToString (jsOrDefault cv (Json.str "")),
       jsOrDefault sv (Json.str "pending")⟩

/-- The same mapping on a non-`null` element, as a pure function. -/
def todoPure (t : Json) : TodoItem :=
  ⟨jsToString (jsOrDefault (propOf t "id") (Json.str "")),
   jsToString (jsOrDefault (propOf t "content") (Json.str "")),
   jsOrDefault (propOf t "status") (Json.str "pending")⟩

/-- The `Array.prototype.map` over the todos payload: left to right, the first
thrown `TypeError` aborts the whole call (before any assignment). -/
def mapTodos : List Json → Except Unit (List TodoItem)
  | [] => .ok []
  | t :: ts => do
    let x ← todoFromJson t
    let xs ← mapTodos ts
    .ok (x :: xs)

/-- The `this.currentTodos.length > 0 ? this.currentTodos : undefined`. -/
def todosOpt (todos : List TodoItem) : Option (List TodoItem) :=
  if todos.length > 0 then some todos else none

/-- The `command ? "Running: " + this.truncate(command, 50) : undefined`. -/
def cmdOut (command : String) : Option String :=
  if command = "" then none else some ("Running: " ++ truncate command 50)

/-- The trailing `parsed.type === "step_start"` check of
`detectStepFromLine`. -/
def stepStartCheck (todos : List TodoItem) (ty : Option Json) :
    Except Unit (Option StepInfo × List TodoItem) :=
  if isStrVal ty "step_start" then
    .ok (some ⟨"Thinking", none, none, todosOpt todos⟩, todos)
  else .ok (none, todos)

/-- The read / write / bash classification of `detectStepFromLine`, after the
tool name, paths, command and content fields have been extracted. -/
def classifyLineTool (todos : List TodoItem) (toolName rawFilePath filePath command : String)
    (oldJ newJ : Json) (ty : Option Json) : Except Unit (Option StepInfo × List TodoItem) :=
  if toolName = "read" ∨ toolName = "glob" ∨ toolName = "grep" then
    .ok (some ⟨"Reading code",
      (if filePath = "" then none else some (truncatePath filePath)), none, todosOpt todos⟩, todos)
  else if toolName = "write" ∨ toolName = "edit" then do
    let oldContent ← jsonAsString oldJ
    let newContent ← jsonAsString newJ
    .ok (some ⟨(if isTestFile filePath then "Writing tests" else "Implementing"),
      none, createDiff rawFilePath oldContent newContent 4, todosOpt todos⟩, todos)
  else if toolName = "bash" then
    if strContains command "git commit" then .ok (some ⟨"Committing", none, none, todosOpt todos⟩, todos)
    else if strContains command "git add" then .ok (some ⟨"Staging", none, none, todosOpt todos⟩, todos)
    else if strContains command "lint" || strContains command "eslint" || strContains command "biome" then
      .ok (some ⟨"Linting", cmdOut command, none, todosOpt todos⟩, todos)
    else if strContains command "test" || strContains command "vitest" || strContains command "jest" then
      .ok (some ⟨"Testing", cmdOut command, none, todosOpt todos⟩, todos)
    else .ok (some ⟨"Running command", cmdOut command, none, todosOpt todos⟩, todos)
  else stepStartCheck todos ty

/-- The part of the `tool_call` branch of `detectStepFromLine` following the
todo-write handling: extraction of `rawFilePath / filePath / command /
old / new content`, then the read / write / bash checks. -/
def detectLineRest (todos : List TodoItem) (toolName : String) (input : Json)
    (ty : Option Json) : Except Unit (Option StepInfo × List TodoItem) := do
  let rawFilePath ← jsonAsString (← firstTruthyProp input ["file_path", "path"])
  let filePath := jsLower rawFilePath
  let command ← jsToLowerCase (← firstTruthyProp input ["command"])
  let oldJ ← firstTruthyProp input ["old_string", "oldString"]
  let newJ ← firstTruthyProp input ["content", "new_string", "newString"]
  classifyLineTool todos toolName rawFilePath filePath command oldJ newJ ty

/-- The `OpenCodeEngine.detectStepFromLine` on a parsed line (the body of its
`try`), with the tracked todo list threaded explicitly: returns the optional
event together with the updated `currentTodos`. -/
def detectStepFromLineCore (todos : List TodoItem) (parsed : Json) :
    Except Unit (Option StepInfo × List TodoItem) := do
  let ty ← getProp parsed "type"
  if isStrVal ty "tool_call" then do
    let part ← getProp parsed "part"
    let nameV ← optProp part "name"
    if truthyOpt nameV then do
      let toolName ← jsToLowerCase (nameV.getD Json.null)
      let input := jsOrDefault (← optProp part "input") (Json.obj [])
      if toolName = "todowrite" ∨ toolName = "mcp_todowrite" then
        match ← getProp input "todos" with
        | some (.arr ts) => do
          let newTodos ← mapTodos ts
          .ok (some ⟨"Planning", none, none, some newTodos⟩, newTodos)
        | _ => detectLineRest todos toolName input ty
      else detectLineRest todos toolName input ty
    else stepStartCheck todos ty
  else stepStartCheck todos ty

/-- The `OpenCodeEngine.detectStepFromLine`: the pre-filter, the collaborator
parse of the trimmed line, and the `catch` that turns a thrown `TypeError`
into `null` with `currentTodos` left unchanged (the source never throws after
assigning `currentTodos`). -/
def detectStepFromLine (todos : List TodoItem) (line : String) (parsed : Option Json) :
    Option StepInfo × List TodoItem :=
  if startsWithBrace (jsTrim line) then
    match parsed with
    | none => (none, todos)
    | some j =>
      match detectStepFromLineCore todos j with
      | .ok r => r
      | .error _ => (none, todos)
  else (none, todos)

/-- One `step_finish` scan step of `OpenCodeEngine.parseOutput` (a `null`
parse result throws on `.type` and is swallowed for that line). -/
def stepFinishLine (j : Json) (acc : Json × Json × Option String) : Json × Json × Option String :=
  match j with
  | .null => acc
  | _ =>
    if isStrVal (propOf j "type") "step_finish" then
      let tokens := optPropOf (propOf j "part") "tokens"
      let inTok := jsOrDefault (optPropOf tokens "input") (Json.num 0)
      let outTok := jsOrDefault (optPropOf tokens "output") (Json.num 0)
      let costV := optPropOf (propOf j "part") "cost"
      let cost := match costV with
        | some v => if v.truthy then some (jsToString v) else acc.2.2
        | none => acc.2.2
      (inTok, outTok, cost)
    else acc

def stepFinishFold (parse : String → Option Json) :
    List String → (Json × Json × Option String) → Json × Json × Option String
  | [], acc => acc
  | l :: rest, acc =>
    stepFinishFold parse rest (match parse l with
      | none => acc
      | some j => stepFinishLine j acc)

/-- The text-event collection of `OpenCodeEngine.parseOutput`. -/
def textPartsOf (parse : String → Option Json) : List String → List String
  | [] => []
  | l :: rest =>
    match parse l with
    | none => textPartsOf parse rest
    | some j =>
      match j with
      | .null => textPartsOf parse rest
      | _ =>
        if isStrVal (propOf j "type") "text" then
          match optPropOf (propOf j "part") "text" with
          | some v => if v.truthy then jsToString v :: textPartsOf parse rest else textPartsOf parse rest
          | none => textPartsOf parse rest
        else textPartsOf parse rest

/-- The `OpenCodeEngine.parseOutput`: response text, token counts and cost from
the buffered output (`response`, `inputTokens`, `outputTokens`, `cost`). -/
def parseOutput (parse : String → Option Json) (output : String) :
    String × Json × Json × Option String :=
  let lines := (splitChar '\n' output).filter (fun l => l ≠ "")
  let (inTok, outTok, cost) := stepFinishFold parse lines (Json.num 0, Json.num 0, none)
  let response := joinWith "" (textPartsOf parse lines)
  ((if response = "" then "Task completed" else response), inTok, outTok, cost)

/-- The result aggregation shared by `OpenCodeEngine.execute` and
`OpenCodeEngine.executeStreaming` once the buffered `output` and the process
`exitCode` are in hand: explicit error events short-circuit, a nonzero exit
without one still fails with a synthesized message. -/
def aggregateResult (parse : String → Option Json) (output : String) (exitCode : Int) : AIResult :=
  match checkForErrors parse output with
  | some err => ⟨false, "", Json.num 0, Json.num 0, none, some err⟩
  | none =>
    let (response, inTok, outTok, cost) := parseOutput parse output
    if exitCode ≠ 0 then
      ⟨false, response, inTok, outTok, none, some (Json.str (formatCommandError exitCode output))⟩
    else ⟨true, response, inTok, outTok, cost, none⟩

end OpenCodeEngine


/-! Section: Proof helpers -/

theorem exceptBindOk {α β : Type} {m : Except Unit α} {k : α → Except Unit β} {r : β}
    (h : m >>= k = Except.ok r) : ∃ a, m = Except.ok a ∧ k a = Except.ok r := by
  cases m with
  | ok a => exact ⟨a, rfl, h⟩
  | error e => exact absurd h (by intro hh; exact Except.noConfusion hh)

/-- The closed enumeration of canonical steps (`CanonicalStep` of the spec). -/
def canonicalStep (s : String) : Bool :=
  s == "Thinking" || s == "Reading code" || s == "Implementing" || s == "Writing tests" ||
    s == "Running command" || s == "Linting" || s == "Testing" || s == "Committing" ||
    s == "Staging" || s == "Planning"

theorem okSomeStep {x si : StepInfo}
    (h : (Except.ok (some x) : Except Unit (Option StepInfo)) = .ok (some si)) : x = si := by
  injection h with h1
  exact Option.some.inj h1

theorem okNoneStep {si : StepInfo}
    (h : (Except.ok (none : Option StepInfo) : Except Unit (Option StepInfo)) = .ok (some si)) :
    False := by
  injection h with h1
  exact Option.noConfusion h1

theorem okPairStep {x si : StepInfo} {t s : List TodoItem}
    (h : (Except.ok (some x, t) : Except Unit (Option StepInfo × List TodoItem)) = .ok (some si, s)) :
    x = si := by
  injection h with h1
  injection h1 with h2 h3
  exact Option.some.inj h2

theorem okPairNone {si : StepInfo} {t s : List TodoItem}
    (h : (Except.ok ((none : Option StepInfo), t) : Except Unit (Option StepInfo × List TodoItem)) = .ok (some si, s)) :
    False := by
  injection h with h1
  injection h1 with h2 h3
  exact Option.noConfusion h2

set_option maxHeartbeats 1000000 in
theorem classifyFromOutput_canonical {tn fp c d : String} {rc : Except Unit String} {si : StepInfo}
    (h : classifyFromOutput tn fp c d rc = .ok (some si)) : canonicalStep si.step = true := by
  simp only [classifyFromOutput] at h
  split_ifs at h <;>
    first
      | exact absurd h okNoneStep
      | (obtain rfl := okSomeStep h; rfl)
      | (obtain ⟨a, -, h⟩ := exceptBindOk h; obtain rfl := okSomeStep h; rfl)

theorem detectStepFromOutputCore_canonical {j : Json} {si : StepInfo}
    (h : detectStepFromOutputCore j = .ok (some si)) : canonicalStep si.step = true := by
  unfold detectStepFromOutputCore at h
  obtain ⟨ct, hct, h⟩ := exceptBindOk h
  cases ct with
  | some ct => exact classifyFromOutput_canonical h
  | none =>
    obtain ⟨tn, -, h⟩ := exceptBindOk h
    obtain ⟨c, -, h⟩ := exceptBindOk h
    obtain ⟨fpJ, -, h⟩ := exceptBindOk h
    obtain ⟨fp, -, h⟩ := exceptBindOk h
    obtain ⟨dJ, -, h⟩ := exceptBindOk h
    obtain ⟨d, -, h⟩ := exceptBindOk h
    exact classifyFromOutput_canonical h

theorem stepStartCheck_canonical {todos : List TodoItem} {ty : Option Json} {si : StepInfo}
    {s : List TodoItem} (h : OpenCodeEngine.stepStartCheck todos ty = .ok (some si, s)) :
    canonicalStep si.step = true := by
  unfold OpenCodeEngine.stepStartCheck at h
  split_ifs at h <;>
    first
      | exact absurd h okPairNone
      | (obtain rfl := okPairStep h; rfl)

set_option maxHeartbeats 1000000 in
theorem classifyLineTool_canonical {todos : List TodoItem} {tn rfp fp c : String}
    {oldJ newJ : Json} {ty : Option Json} {si : StepInfo} {s : List TodoItem}
    (h : OpenCodeEngine.classifyLineTool todos tn rfp fp c oldJ newJ ty = .ok (some si, s)) :
    canonicalStep si.step = true := by
  simp only [OpenCodeEngine.classifyLineTool] at h
  split_ifs at h <;>
    first
      | exact stepStartCheck_canonical h
      | (obtain rfl := okPairStep h; rfl)
      | (obtain ⟨a, -, h⟩ := exceptBindOk h;
         obtain ⟨b, -, h⟩ := exceptBindOk h;
         obtain rfl := okPairStep h; rfl)

theorem detectLineRest_canonical {todos : List TodoItem} {tn : String} {input : Json}
    {ty : Option Json} {si : StepInfo} {s : List TodoItem}
    (h : OpenCodeEngine.detectLineRest todos tn input ty = .ok (some si, s)) :
    canonicalStep si.step = true := by
  unfold OpenCodeEngine.detectLineRest at h
  obtain ⟨a, -, h⟩ := exceptBindOk h
  obtain ⟨b, -, h⟩ := exceptBindOk h
  obtain ⟨c, -, h⟩ := exceptBindOk h
  obtain ⟨d, -, h⟩ := exceptBindOk h
  obtain ⟨e, -, h⟩ := exceptBindOk h
  obtain ⟨f, -, h⟩ := exceptBindOk h
  exact classifyLineTool_canonical h

theorem detectStepFromLineCore_canonical {todos : List TodoItem} {j : Json} {si : StepInfo}
    {s : List TodoItem} (h : OpenCodeEngine.detectStepFromLineCore todos j = .ok (some si, s)) :
    canonicalStep si.step = true := by
  unfold OpenCodeEngine.detectStepFromLineCore at h
  obtain ⟨ty, -, h⟩ := exceptBindOk h
  split at h
  · obtain ⟨part, -, h⟩ := exceptBindOk h
    obtain ⟨nameV, -, h⟩ := exceptBindOk h
    split at h
    · obtain ⟨tn, -, h⟩ := exceptBindOk h
      obtain ⟨inputV, -, h⟩ := exceptBindOk h
      split at h
      · obtain ⟨tv, -, h⟩ := exceptBindOk h
        split at h
        · obtain ⟨nt, -, h⟩ := exceptBindOk h
          obtain rfl := okPairStep h; rfl
        · exact detectLineRest_canonical h
      · exact detectLineRest_canonical h
    · exact stepStartCheck_canonical h
  · exact stepStartCheck_canonical h

/-! Section: C1 -/

/-- C1: for every input line — malformed JSON (`parsed = none`), non-JSON
text, JSON with missing or wrongly typed fields, or the empty string — the
per-line classifiers `detectStepFromOutput` and
`OpenCodeEngine.detectStepFromLine` never raise an exception (they are total
functions here, every internal JS `TypeError` being caught and mapped to
`null`): each call returns either `none` or a step info record whose step
name belongs to the canonical enumeration. -/
theorem c1_classifiers_total_canonical (line : String) (parsed : Option Json)
    (todos : List TodoItem) :
    (∀ si, detectStepFromOutput line parsed = some si → canonicalStep si.step = true) ∧
    (∀ si s, OpenCodeEngine.detectStepFromLine todos line parsed = (some si, s) →
      canonicalStep si.step = true) := by
  constructor
  · intro si h
    unfold detectStepFromOutput at h
    split at h
    · rcases parsed with _ | j
      · exact Option.noConfusion h
      · have h2 : (match detectStepFromOutputCore j with
            | Except.ok r => r
            | Except.error _ => none) = some si := h
        cases hc : detectStepFromOutputCore j with
        | error e => rw [hc] at h2; exact Option.noConfusion h2
        | ok r =>
          rw [hc] at h2
          have h' : r = some si := h2
          subst h'
          exact detectStepFromOutputCore_canonical hc
    · exact Option.noConfusion h
  · intro si s h
    unfold OpenCodeEngine.detectStepFromLine at h
    split at h
    · rcases parsed with _ | j
      · have h' : ((none : Option StepInfo), todos) = (some si, s) := h
        injection h' with h1 h2
        exact Option.noConfusion h1
      · have h2 : (match OpenCodeEngine.detectStepFromLineCore todos j with
            | Except.ok r => r
            | Except.error _ => ((none : Option StepInfo), todos)) = (some si, s) := h
        cases hc : OpenCodeEngine.detectStepFromLineCore todos j with
        | error e =>
          rw [hc] at h2
          have h' : ((none : Option StepInfo), todos) = (some si, s) := h2
          injection h' with h1 h3
          exact Option.noConfusion h1
        | ok r =>
          rw [hc] at h2
          have h' : r = (some si, s) := h2
          subst h'
          exact detectStepFromLineCore_canonical hc
    · have h' : ((none : Option StepInfo), todos) = (some si, s) := h
      injection h' with h1 h2
      exact Option.noConfusion h1

/-- Witness for C1 at a concrete input: a `step_start` line classifies to the
canonical step `Thinking`. -/
theorem c1_witness :
    OpenCodeEngine.detectStepFromLine [] "\x7b\"type\":\"step_start\"\x7d"
        (some (Json.obj [("type", Json.str "step_start")])) =
      (some ⟨"Thinking", none, none, none⟩, []) ∧
    canonicalStep "Thinking" = true := by
  refine ⟨rfl, ?_⟩
  exact (c1_classifiers_total_canonical "\x7b\"type\":\"step_start\"\x7d"
    (some (Json.obj [("type", Json.str "step_start")])) []).2
    ⟨"Thinking", none, none, none⟩ [] rfl

/-! Section: C2 -/

def c2CmdLine : String :=
  "\x7b\"tool\":\"bash\",\"command\":\"git add . && npm run lint && npm test\"\x7d"

def c2CmdJson : Json :=
  Json.obj [("tool", Json.str "bash"), ("command", Json.str "git add . && npm run lint && npm test")]

/-- C2 counterexample: a bash invocation whose command contains both `lint`
and `test` does not always classify as Linting — the git-commit / git-add
checks run first, so `git add . && npm run lint && npm test` classifies as
Staging. -/
theorem c2_counterexample :
    strContains "git add . && npm run lint && npm test" "lint" = true ∧
    strContains "git add . && npm run lint && npm test" "test" = true ∧
    detectStepFromOutput c2CmdLine (some c2CmdJson) = some ⟨"Staging", none, none, none⟩ ∧
    "Staging" ≠ "Linting" := by
  exact ⟨rfl, rfl, rfl, by decide⟩

set_option maxHeartbeats 1000000 in
/-- C2 as amended: for every bash invocation whose command contains both
`lint` and `test`, the classifiers never return Testing (the lint check
precedes the test check); and they return Linting provided the command (and,
for `detectStepFromOutput`, the description) contains neither the `git
commit` nor the `git add` marker, which are checked even earlier. -/
theorem c2_amended (c d rc : String)
    (hlint : strContains c "lint" = true)
    (htest : strContains c "test" = true)
    (hc1 : strContains c "git commit" = false) (hd1 : strContains d "git commit" = false)
    (hc2 : strContains c "git add" = false) (hd2 : strContains d "git add" = false) :
    (classifyFromOutput "bash" "" c d (.ok rc) =
      .ok (some ⟨"Linting", (if rc = "" then none else some (formatCommand rc)), none, none⟩)) ∧
    (∀ rc' si, classifyFromOutput "bash" "" c d rc' = .ok (some si) → si.step ≠ "Testing") ∧
    (∀ todos rfp fp oldJ newJ ty,
      OpenCodeEngine.classifyLineTool todos "bash" rfp fp c oldJ newJ ty =
        .ok (some ⟨"Linting", OpenCodeEngine.cmdOut c, none, OpenCodeEngine.todosOpt todos⟩, todos)) ∧
    (∀ todos rfp fp oldJ newJ ty si s,
      OpenCodeEngine.classifyLineTool todos "bash" rfp fp c oldJ newJ ty = .ok (some si, s) →
      si.step ≠ "Testing") := by
  refine ⟨?_, ?_, ?_, ?_⟩
  · simp [classifyFromOutput, hlint, hc1, hc2, hd1, hd2, Bind.bind, Except.bind]
  · intro rc' si h
    simp only [classifyFromOutput] at h
    split_ifs at h <;>
      first
        | exact absurd h okNoneStep
        | (obtain rfl := okSomeStep h; simp_all)
        | (obtain ⟨a, -, h⟩ := exceptBindOk h; obtain rfl := okSomeStep h; simp_all)
  · intro todos rfp fp oldJ newJ ty
    simp [OpenCodeEngine.classifyLineTool, hlint, hc1, hc2]
  · intro todos rfp fp oldJ newJ ty si s h
    simp only [OpenCodeEngine.classifyLineTool] at h
    split_ifs at h <;>
      first
        | (obtain rfl := okPairStep h; simp_all)
        | (obtain ⟨a, -, h⟩ := exceptBindOk h;
           obtain ⟨b, -, h⟩ := exceptBindOk h;
           obtain rfl := okPairStep h; simp_all)

/-- Witness for C2 amended, at the command `npm run lint && npm test`: the
base classifier yields Linting with the command echo. -/
theorem c2_amended_witness :
    strContains "npm run lint && npm test" "lint" = true ∧
    strContains "npm run lint && npm test" "test" = true ∧
    strContains "npm run lint && npm test" "git commit" = false ∧
    strContains "npm run lint && npm test" "git add" = false ∧
    classifyFromOutput "bash" "" "npm run lint && npm test" "" (.ok "npm run lint && npm test") =
      .ok (some ⟨"Linting", some "Running: npm run lint && npm test", none, none⟩) := by
  refine ⟨rfl, rfl, rfl, rfl, ?_⟩
  have h := (c2_amended "npm run lint && npm test" "" "npm run lint && npm test"
    rfl rfl rfl rfl rfl rfl).1
  simpa using h

/-! Section: C3 -/

/-- The lint substring markers of `detectStepFromOutput`. -/
def lintMarkers (c : String) : Bool :=
  strContains c "lint" || strContains c "eslint" || strContains c "biome" || strContains c "prettier"

/-- The test-runner substring markers of `detectStepFromOutput`. -/
def testMarkers (c : String) : Bool :=
  strContains c "vitest" || strContains c "jest" || strContains c "bun test" ||
    strContains c "npm test" || strContains c "pytest" || strContains c "go test"

/-- The lint substring markers of `OpenCodeEngine.detectStepFromLine` (no
`prettier`). -/
def lintMarkersOC (c : String) : Bool :=
  strContains c "lint" || strContains c "eslint" || strContains c "biome"

/-- The test substring markers of `OpenCodeEngine.detectStepFromLine` (the
bare substring `test` already covers every command containing it). -/
def testMarkersOC (c : String) : Bool :=
  strContains c "test" || strContains c "vitest" || strContains c "jest"

/-- The step name of a classification result, `none` when no event (or a
caught throw). -/
def stepOf (r : Except Unit (Option StepInfo)) : Option String :=
  match r with
  | .ok (some si) => some si.step
  | _ => none

def stepOfLine (r : Except Unit (Option StepInfo × List TodoItem)) : Option String :=
  match r with
  | .ok (some si, _) => some si.step
  | _ => none

def c3Line : String :=
  "\x7b\"type\":\"tool_call\",\"part\":\x7b\"name\":\"bash\",\"input\":\x7b\"command\":\"prettier --write .\"\x7d\x7d\x7d"

def c3Json : Json :=
  Json.obj [("type", Json.str "tool_call"),
    ("part", Json.obj [("name", Json.str "bash"),
      ("input", Json.obj [("command", Json.str "prettier --write .")])])]

/-- C3 counterexample: the claim's marker sets do not hold for
`OpenCodeEngine.detectStepFromLine` — its lint markers are only
`lint`/`eslint`/`biome`, so the bash command `prettier --write .` classifies
as Running command there, not Linting. -/
theorem c3_counterexample :
    strContains "prettier --write ." "prettier" = true ∧
    OpenCodeEngine.detectStepFromLine [] c3Line (some c3Json) =
      (some ⟨"Running command", some "Running: prettier --write .", none, none⟩, []) ∧
    "Running command" ≠ "Linting" := ⟨rfl, rfl, by decide⟩

set_option maxHeartbeats 2000000 in
/-- C3 as amended: for a bash-like invocation (bash tool, or non-empty
command, and not a read-family tool) with no git-commit and no git-add marker
in command or description, `detectStepFromOutput` classifies Linting exactly
when the command contains one of lint / eslint / biome / prettier, Testing
exactly when it contains one of vitest / jest / bun test / npm test / pytest
/ go test and no lint marker (the lint check precedes), and otherwise a bash
invocation with a non-empty command yields Running command.  For
`OpenCodeEngine.detectStepFromLine` the marker sets differ: Linting exactly
on lint / eslint / biome (`prettier` alone falls through to Running command),
Testing exactly on the bare substring `test`, or `vitest` / `jest`, with no
lint marker; the bash fallback is Running command even for an empty
command. -/
theorem c3_amended (tn fp c d rc : String)
    (hnotread : ¬(tn = "read" ∨ tn = "glob" ∨ tn = "grep"))
    (hbashlike : tn = "bash" ∨ c ≠ "")
    (hc1 : strContains c "git commit" = false) (hd1 : strContains d "git commit" = false)
    (hc2 : strContains c "git add" = false) (hd2 : strContains d "git add" = false) :
    (stepOf (classifyFromOutput tn fp c d (.ok rc)) = some "Linting" ↔ lintMarkers c = true) ∧
    (stepOf (classifyFromOutput tn fp c d (.ok rc)) = some "Testing" ↔
      (lintMarkers c = false ∧ testMarkers c = true)) ∧
    (tn = "bash" → c ≠ "" → lintMarkers c = false → testMarkers c = false →
      stepOf (classifyFromOutput tn fp c d (.ok rc)) = some "Running command") ∧
    (∀ todos rfp fp2 oldJ newJ ty,
      (stepOfLine (OpenCodeEngine.classifyLineTool todos "bash" rfp fp2 c oldJ newJ ty) =
          some "Linting" ↔ lintMarkersOC c = true) ∧
      (stepOfLine (OpenCodeEngine.classifyLineTool todos "bash" rfp fp2 c oldJ newJ ty) =
          some "Testing" ↔ (lintMarkersOC c = false ∧ testMarkersOC c = true)) ∧
      (lintMarkersOC c = false → testMarkersOC c = false →
        stepOfLine (OpenCodeEngine.classifyLineTool todos "bash" rfp fp2 c oldJ newJ ty) =
          some "Running command")) := by
  refine ⟨⟨?_, ?_⟩, ⟨?_, ?_⟩, ?_, ?_⟩
  · intro h
    simp only [classifyFromOutput, stepOf] at h
    split_ifs at h <;> simp_all [lintMarkers, Bind.bind, Except.bind]
  · intro hm
    simp only [lintMarkers] at hm
    simp only [classifyFromOutput, stepOf]
    split_ifs <;>
      first
        | rfl
        | simp_all [Bind.bind, Except.bind]
  · intro h
    simp only [classifyFromOutput, stepOf] at h
    split_ifs at h <;> simp_all [lintMarkers, testMarkers, Bind.bind, Except.bind]
  · rintro ⟨hlm, htm⟩
    simp only [lintMarkers] at hlm
    simp only [testMarkers] at htm
    simp only [classifyFromOutput, stepOf]
    split_ifs <;>
      first
        | rfl
        | simp_all [Bind.bind, Except.bind]
  · intro htn hcne hlm htm
    subst htn
    simp only [lintMarkers] at hlm
    simp only [testMarkers] at htm
    simp only [classifyFromOutput, stepOf]
    split_ifs <;> simp_all [Bind.bind, Except.bind]
  · intro todos rfp fp2 oldJ newJ ty
    refine ⟨⟨?_, ?_⟩, ⟨?_, ?_⟩, ?_⟩
    · intro h
      simp only [OpenCodeEngine.classifyLineTool, stepOfLine] at h
      split_ifs at h <;> simp_all [lintMarkersOC]
    · intro hm
      simp only [lintMarkersOC] at hm
      simp only [OpenCodeEngine.classifyLineTool, stepOfLine]
      split_ifs <;> simp_all
    · intro h
      simp only [OpenCodeEngine.classifyLineTool, stepOfLine] at h
      split_ifs at h <;> simp_all [lintMarkersOC, testMarkersOC]
    · rintro ⟨hlm, htm⟩
      simp only [lintMarkersOC] at hlm
      simp only [testMarkersOC] at htm
      simp only [OpenCodeEngine.classifyLineTool, stepOfLine]
      split_ifs <;> simp_all
    · intro hlm htm
      simp only [lintMarkersOC] at hlm
      simp only [testMarkersOC] at htm
      simp only [OpenCodeEngine.classifyLineTool, stepOfLine]
      split_ifs <;> simp_all

/-- Witness for C3 amended: the command `npx vitest run` carries a test
marker and no lint marker, so the base classifier yields Testing. -/
theorem c3_amended_witness :
    lintMarkers "npx vitest run" = false ∧ testMarkers "npx vitest run" = true ∧
    stepOf (classifyFromOutput "bash" "" "npx vitest run" "" (.ok "npx vitest run")) =
      some "Testing" := by
  refine ⟨rfl, rfl, ?_⟩
  exact (c3_amended "bash" "" "npx vitest run" "" "npx vitest run"
    (by decide) (Or.inl rfl) rfl rfl rfl rfl).2.1.mpr ⟨rfl, rfl⟩

/-! Section: C4 -/

def c4Line : String :=
  "\x7b\"type\":\"tool_call\",\"part\":\x7b\"name\":\"write\",\"input\":\x7b\"file_path\":\"pkg/foo_test.go\",\"content\":\"package foo\"\x7d\x7d\x7d"

def c4Json : Json :=
  Json.obj [("type", Json.str "tool_call"),
    ("part", Json.obj [("name", Json.str "write"),
      ("input", Json.obj [("file_path", Json.str "pkg/foo_test.go"),
        ("content", Json.str "package foo")])])]

/-- C4 counterexample: `OpenCodeEngine.isTestFile` has no Go test-suffix
marker, so a write to `pkg/foo_test.go` classifies as Implementing in the
streaming classifier even though the path matches the claimed `_test.go`
heuristic (which only the `base.ts` `isTestFile` implements). -/
theorem c4_counterexample :
    strContains "pkg/foo_test.go" "_test.go" = true ∧
    isTestFile "pkg/foo_test.go" = true ∧
    OpenCodeEngine.isTestFile "pkg/foo_test.go" = false ∧
    OpenCodeEngine.detectStepFromLine [] c4Line (some c4Json) =
      (some ⟨"Implementing", none,
        some ⟨"pkg/foo_test.go", none, none, some ["package foo"]⟩, none⟩, []) ∧
    "Implementing" ≠ "Writing tests" := ⟨rfl, rfl, rfl, rfl, by decide⟩

set_option maxHeartbeats 2000000 in
/-- C4 as amended: for every write-family invocation (tool `write` or
`edit`), `OpenCodeEngine.detectStepFromLine` returns Writing tests exactly
when the lower-cased target path contains `.test.`, `.spec.` or `__tests__`
— the Go `_test.go` suffix is not a marker there — and Implementing for every
other path; `detectStepFromOutput`, provided the invocation carries no
command text (a non-empty command would trigger the earlier bash-block
checks), returns Writing tests exactly when the path matches those markers or
`_test.go`, and Implementing otherwise. -/
theorem c4_amended (tn : String) (htn : tn = "write" ∨ tn = "edit") :
    (∀ todos rfp fp c oldS newS ty,
      (stepOfLine (OpenCodeEngine.classifyLineTool todos tn rfp fp c (.str oldS) (.str newS) ty) =
          some "Writing tests" ↔
        (strContains (jsLower fp) ".test." || strContains (jsLower fp) ".spec." ||
          strContains (jsLower fp) "__tests__") = true) ∧
      (stepOfLine (OpenCodeEngine.classifyLineTool todos tn rfp fp c (.str oldS) (.str newS) ty) =
          some "Implementing" ↔
        (strContains (jsLower fp) ".test." || strContains (jsLower fp) ".spec." ||
          strContains (jsLower fp) "__tests__") = false)) ∧
    (∀ fp d rc,
      (stepOf (classifyFromOutput tn fp "" d rc) = some "Writing tests" ↔
        (strContains (jsLower fp) ".test." || strContains (jsLower fp) ".spec." ||
          strContains (jsLower fp) "__tests__" || strContains (jsLower fp) "_test.go") = true) ∧
      (stepOf (classifyFromOutput tn fp "" d rc) = some "Implementing" ↔
        (strContains (jsLower fp) ".test." || strContains (jsLower fp) ".spec." ||
          strContains (jsLower fp) "__tests__" || strContains (jsLower fp) "_test.go") = false)) := by
  constructor
  · intro todos rfp fp c oldS newS ty
    by_cases hm : OpenCodeEngine.isTestFile fp = true
    · have hm' := hm
      simp only [OpenCodeEngine.isTestFile] at hm'
      rcases htn with rfl | rfl <;>
        simp [OpenCodeEngine.classifyLineTool, stepOfLine, hm, hm', Bind.bind, Except.bind,
          jsonAsString]
    · have hm0 : OpenCodeEngine.isTestFile fp = false := by simpa using hm
      have hm' := hm0
      simp only [OpenCodeEngine.isTestFile] at hm'
      rcases htn with rfl | rfl <;>
        simp [OpenCodeEngine.classifyLineTool, stepOfLine, hm0, hm', Bind.bind, Except.bind,
          jsonAsString]
  · intro fp d rc
    by_cases hm : isTestFile fp = true
    · have hm' := hm
      simp only [isTestFile] at hm'
      rcases htn with rfl | rfl <;> simp [classifyFromOutput, stepOf, hm, hm']
    · have hm0 : isTestFile fp = false := by simpa using hm
      have hm' := hm0
      simp only [isTestFile] at hm'
      rcases htn with rfl | rfl <;> simp [classifyFromOutput, stepOf, hm0, hm']

/-- Witness for C4 amended at a write to `src/App.test.ts`. -/
theorem c4_amended_witness :
    strContains (jsLower "src/App.test.ts") ".test." = true ∧
    stepOfLine (OpenCodeEngine.classifyLineTool [] "write" "src/App.test.ts" "src/app.test.ts" ""
        (.str "") (.str "it works") none) = some "Writing tests" := by
  refine ⟨rfl, ?_⟩
  exact ((c4_amended "write" (Or.inl rfl)).1 [] "src/App.test.ts" "src/app.test.ts" ""
    "" "it works" none).1.mpr rfl

/-! Section: State of the todo tracker (C5, C6) -/

theorem getProp_eq_propOf {j : Json} (h : j ≠ Json.null) (k : String) :
    getProp j k = .ok (propOf j k) := by
  cases j <;> first | (exact absurd rfl h) | rfl

theorem classifyLineTool_state {todos : List TodoItem} {tn rfp fp c : String}
    {oldJ newJ : Json} {ty : Option Json} {r : Option StepInfo} {s : List TodoItem}
    (h : OpenCodeEngine.classifyLineTool todos tn rfp fp c oldJ newJ ty = .ok (r, s)) :
    s = todos := by
  simp only [OpenCodeEngine.classifyLineTool, OpenCodeEngine.stepStartCheck] at h
  split_ifs at h <;>
    first
      | (injection h with h1; injection h1 with h2 h3; exact h3.symm)
      | (obtain ⟨a, -, h⟩ := exceptBindOk h; obtain ⟨b, -, h⟩ := exceptBindOk h;
         injection h with h1; injection h1 with h2 h3; exact h3.symm)

theorem detectLineRest_state {todos : List TodoItem} {tn : String} {input : Json}
    {ty : Option Json} {r : Option StepInfo} {s : List TodoItem}
    (h : OpenCodeEngine.detectLineRest todos tn input ty = .ok (r, s)) : s = todos := by
  unfold OpenCodeEngine.detectLineRest at h
  obtain ⟨a, -, h⟩ := exceptBindOk h
  obtain ⟨b, -, h⟩ := exceptBindOk h
  obtain ⟨c, -, h⟩ := exceptBindOk h
  obtain ⟨d, -, h⟩ := exceptBindOk h
  obtain ⟨e, -, h⟩ := exceptBindOk h
  obtain ⟨f, -, h⟩ := exceptBindOk h
  exact classifyLineTool_state h

theorem detectLineRest_state_match (todos : List TodoItem) (tn : String) (input : Json)
    (ty : Option Json) :
    (match OpenCodeEngine.detectLineRest todos tn input ty with
      | .ok r => r
      | .error _ => ((none : Option StepInfo), todos)).2 = todos := by
  cases hres : OpenCodeEngine.detectLineRest todos tn input ty with
  | error e => rfl
  | ok r =>
    obtain ⟨r1, r2⟩ := r
    exact detectLineRest_state hres

theorem stepStartCheck_state_match (todos : List TodoItem) (ty : Option Json) :
    (match OpenCodeEngine.stepStartCheck todos ty with
      | .ok r => r
      | .error _ => ((none : Option StepInfo), todos)).2 = todos := by
  unfold OpenCodeEngine.stepStartCheck
  split_ifs <;> rfl

/-- The one way `detectStepFromLine` updates `currentTodos`: `some newList`
exactly when the parsed line is a todo-write tool call whose `todos` field is
an array and whose mapping completes without a throw. -/
def todoUpdateOf (j : Json) : Option (List TodoItem) :=
  match getProp j "type" with
  | .error _ => none
  | .ok ty =>
    if isStrVal ty "tool_call" then
      match getProp j "part" with
      | .error _ => none
      | .ok part =>
        match optProp part "name" with
        | .error _ => none
        | .ok nameV =>
          if truthyOpt nameV then
            match jsToLowerCase (nameV.getD Json.null) with
            | .error _ => none
            | .ok toolName =>
              match optProp part "input" with
              | .error _ => none
              | .ok inputV =>
                if toolName = "todowrite" ∨ toolName = "mcp_todowrite" then
                  match getProp (jsOrDefault inputV (Json.obj [])) "todos" with
                  | .error _ => none
                  | .ok v =>
                    match v with
                    | some (.arr ts) =>
                      match OpenCodeEngine.mapTodos ts with
                      | .ok nt => some nt
                      | .error _ => none
                    | _ => none
                else none
          else none
    else none

theorem core_state_aux (todos : List TodoItem) (j : Json) :
    (match OpenCodeEngine.detectStepFromLineCore todos j with
      | .ok r => r
      | .error _ => ((none : Option StepInfo), todos)).2 = (todoUpdateOf j).getD todos := by
  unfold OpenCodeEngine.detectStepFromLineCore todoUpdateOf
  cases hty : getProp j "type" with
  | error e => simp [Bind.bind, Except.bind]
  | ok ty =>
    simp only [Bind.bind, Except.bind]
    by_cases h1 : isStrVal ty "tool_call" = true
    · simp only [h1, if_true]
      cases hpart : getProp j "part" with
      | error e => simp
      | ok part =>
        simp only [Except.bind]
        cases hname : optProp part "name" with
        | error e => simp
        | ok nameV =>
          simp only [Except.bind]
          by_cases h2 : truthyOpt nameV = true
          · simp only [h2, if_true]
            cases htn : jsToLowerCase (nameV.getD Json.null) with
            | error e => simp
            | ok toolName =>
              simp only [Except.bind]
              cases hin : optProp part "input" with
              | error e => simp
              | ok inputV =>
                simp only [Except.bind]
                by_cases h3 : toolName = "todowrite" ∨ toolName = "mcp_todowrite"
                · simp only [if_pos h3]
                  cases htd : getProp (jsOrDefault inputV (Json.obj [])) "todos" with
                  | error e => simp
                  | ok v =>
                    simp only [Except.bind]
                    match v with
                    | some (.arr ts) =>
                      cases hmt : OpenCodeEngine.mapTodos ts with
                      | error e => simp [hmt]
                      | ok nt => simp [hmt]
                    | none => exact detectLineRest_state_match todos toolName _ ty
                    | some .null => exact detectLineRest_state_match todos toolName _ ty
                    | some (.bool b) => exact detectLineRest_state_match todos toolName _ ty
                    | some (.num n) => exact detectLineRest_state_match todos toolName _ ty
                    | some (.str s) => exact detectLineRest_state_match todos toolName _ ty
                    | some (.obj fs) => exact detectLineRest_state_match todos toolName _ ty
                · simp only [if_neg h3]
                  exact detectLineRest_state_match todos toolName _ ty
          · simp only [h2, if_false]
            exact stepStartCheck_state_match todos ty
    · simp only [h1, if_false]
      exact stepStartCheck_state_match todos ty

/-- The todo-list update caused by one line, at the wrapper level. -/
def lineTodoUpdate (line : String) (parsed : Option Json) : Option (List TodoItem) :=
  if startsWithBrace (jsTrim line) then
    match parsed with
    | none => none
    | some j => todoUpdateOf j
  else none

theorem detectStepFromLine_state (todos : List TodoItem) (line : String) (parsed : Option Json) :
    (OpenCodeEngine.detectStepFromLine todos line parsed).2 =
      (lineTodoUpdate line parsed).getD todos := by
  unfold OpenCodeEngine.detectStepFromLine lineTodoUpdate
  split
  · cases parsed with
    | none => rfl
    | some j => exact core_state_aux todos j
  · rfl

theorem todoFromJson_ok {t : Json} (h : t ≠ Json.null) :
    OpenCodeEngine.todoFromJson t = .ok (OpenCodeEngine.todoPure t) := by
  cases t <;> first | (exact absurd rfl h) | rfl

theorem mapTodos_ok {ts : List Json} (h : Json.null ∉ ts) :
    OpenCodeEngine.mapTodos ts = .ok (ts.map OpenCodeEngine.todoPure) := by
  induction ts with
  | nil => rfl
  | cons t ts ih =>
    have ht : t ≠ Json.null := by
      intro hh
      exact h (by rw [← hh]; exact List.mem_cons_self t ts)
    have hts : Json.null ∉ ts := fun hh => h (List.mem_cons_of_mem t hh)
    simp [OpenCodeEngine.mapTodos, todoFromJson_ok ht, ih hts, Bind.bind, Except.bind]

/-- A todo-write tool-call line with tool name `nm` and input `inp`. -/
def todoWriteLine (nm : String) (inp : Json) : Json :=
  Json.obj [("type", Json.str "tool_call"),
    ("part", Json.obj [("name", Json.str nm), ("input", inp)])]

/-- C5 as amended: for every todo-write tool invocation (`todowrite` or
`mcp_todowrite`) whose input has a list-shaped `todos` field none of whose
entries is `null`, the tracked todo list is replaced wholesale by the freshly
mapped list (`todoPure`: id and content through JS string conversion with
falsy values defaulting to the empty string, falsy or missing status
defaulting to `pending`) and a Planning progress event carrying exactly the
new list is emitted; and re-applying any line — the same todo payload in
particular — to the resulting state yields that same state (a `null` entry
would make the JS map throw, so such a line is ignored and the tracked list
kept, which the idempotence conjunct also covers). -/
theorem c5_amended (s : List TodoItem) (line : String) (nm : String) (inp : Json)
    (ts : List Json)
    (hbrace : startsWithBrace (jsTrim line) = true)
    (hnm : nm = "todowrite" ∨ nm = "mcp_todowrite")
    (htd : propOf inp "todos" = some (Json.arr ts))
    (hnn : Json.null ∉ ts) :
    OpenCodeEngine.detectStepFromLine s line (some (todoWriteLine nm inp)) =
      (some ⟨"Planning", none, none, some (ts.map OpenCodeEngine.todoPure)⟩,
        ts.map OpenCodeEngine.todoPure) ∧
    (∀ (s0 : List TodoItem) (line' : String) (parsed' : Option Json),
      (OpenCodeEngine.detectStepFromLine
          (OpenCodeEngine.detectStepFromLine s0 line' parsed').2 line' parsed').2 =
        (OpenCodeEngine.detectStepFromLine s0 line' parsed').2) := by
  have hobj : ∃ fs, inp = Json.obj fs := by
    cases inp with
    | obj fs => exact ⟨fs, rfl⟩
    | null => simp [propOf] at htd
    | bool b => simp [propOf] at htd
    | num n => simp [propOf] at htd
    | str s2 => simp [propOf] at htd
    | arr a => simp [propOf] at htd
  obtain ⟨fs, rfl⟩ := hobj
  simp only [propOf] at htd
  constructor
  · rcases hnm with rfl | rfl <;>
      simp [OpenCodeEngine.detectStepFromLine, hbrace, OpenCodeEngine.detectStepFromLineCore,
        todoWriteLine, getProp, lookupField, optProp, jsOrDefault, isStrVal, truthyOpt,
        Json.truthy, jsToLowerCase, htd, mapTodos_ok hnn, Bind.bind, Except.bind,
        show jsLower "todowrite" = "todowrite" from rfl,
        show jsLower "mcp_todowrite" = "mcp_todowrite" from rfl]
  · intro s0 line' parsed'
    rw [detectStepFromLine_state, detectStepFromLine_state]
    cases lineTodoUpdate line' parsed' <;> rfl

def c5Line : String :=
  "\x7b\"type\":\"tool_call\",\"part\":\x7b\"name\":\"todowrite\",\"input\":\x7b\"todos\":[null]\x7d\x7d\x7d"

/-- C5 counterexample: a todo-write invocation whose `todos` field is the
list `[null]` is list-shaped, yet the tracked list is not replaced and no
Planning event is emitted — reading `id` of the `null` entry throws inside
the map and the catch discards the line. -/
theorem c5_counterexample :
    OpenCodeEngine.detectStepFromLine [⟨"1", "keep", Json.str "pending"⟩] c5Line
        (some (todoWriteLine "todowrite" (Json.obj [("todos", Json.arr [Json.null])]))) =
      (none, [⟨"1", "keep", Json.str "pending"⟩]) := rfl

/-- Witness for C5 amended at a one-entry payload. -/
theorem c5_witness :
    startsWithBrace (jsTrim c5Line) = true ∧
    propOf (Json.obj [("todos",
        Json.arr [Json.obj [("id", Json.str "1"), ("content", Json.str "do x"),
          ("status", Json.str "in_progress")]])]) "todos" =
      some (Json.arr [Json.obj [("id", Json.str "1"), ("content", Json.str "do x"),
        ("status", Json.str "in_progress")]]) ∧
    OpenCodeEngine.detectStepFromLine [] c5Line
        (some (todoWriteLine "todowrite" (Json.obj [("todos",
          Json.arr [Json.obj [("id", Json.str "1"), ("content", Json.str "do x"),
            ("status", Json.str "in_progress")]])]))) =
      (some ⟨"Planning", none, none, some [⟨"1", "do x", Json.str "in_progress"⟩]⟩,
        [⟨"1", "do x", Json.str "in_progress"⟩]) := by
  refine ⟨rfl, rfl, ?_⟩
  have h := (c5_amended [] c5Line "todowrite"
    (Json.obj [("todos", Json.arr [Json.obj [("id", Json.str "1"), ("content", Json.str "do x"),
      ("status", Json.str "in_progress")]])])
    [Json.obj [("id", Json.str "1"), ("content", Json.str "do x"),
      ("status", Json.str "in_progress")]]
    rfl (Or.inl rfl) rfl (by simp)).1
  simpa [OpenCodeEngine.todoPure, propOf, lookupField, jsOrDefault, Json.truthy,
    jsToString] using h

theorem getProp_obj (fs : List (String × Json)) (k : String) :
    getProp (Json.obj fs) k = .ok (lookupField fs k) := rfl

/-- C6: a todo-write tool invocation whose `todos` field is absent or not a
list is ignored — the previously tracked todo list is unchanged by the
call. -/
theorem c6_todos_not_list_ignored (s : List TodoItem) (line : String) (nm : String) (inp : Json)
    (hnm : nm = "todowrite" ∨ nm = "mcp_todowrite")
    (htd : ∀ ts, propOf inp "todos" ≠ some (Json.arr ts)) :
    (OpenCodeEngine.detectStepFromLine s line (some (todoWriteLine nm inp))).2 = s := by
  rw [detectStepFromLine_state]
  suffices h : lineTodoUpdate line (some (todoWriteLine nm inp)) = none by rw [h]; rfl
  unfold lineTodoUpdate
  split
  · have hval : jsOrDefault (some inp) (Json.obj []) =
        if inp.truthy = true then inp else Json.obj [] := rfl
    by_cases htr : inp.truthy = true
    · have hne : inp ≠ Json.null := by
        intro hh
        rw [hh] at htr
        exact Bool.noConfusion htr
      rcases hnm with rfl | rfl <;>
      · unfold todoUpdateOf todoWriteLine
        simp [getProp_obj, lookupField, optProp, isStrVal, truthyOpt,
          jsToLowerCase, hval, htr, getProp_eq_propOf hne,
          show Json.truthy (Json.str "todowrite") = true from rfl,
          show Json.truthy (Json.str "mcp_todowrite") = true from rfl,
          show jsLower "todowrite" = "todowrite" from rfl,
          show jsLower "mcp_todowrite" = "mcp_todowrite" from rfl]
    · have htr0 : inp.truthy = false := by simpa using htr
      rcases hnm with rfl | rfl <;>
      · unfold todoUpdateOf todoWriteLine
        simp [getProp_obj, lookupField, optProp, isStrVal, truthyOpt,
          jsToLowerCase, hval, htr0,
          show Json.truthy (Json.str "todowrite") = true from rfl,
          show Json.truthy (Json.str "mcp_todowrite") = true from rfl,
          show jsLower "todowrite" = "todowrite" from rfl,
          show jsLower "mcp_todowrite" = "mcp_todowrite" from rfl]
  · rfl

/-- Witness for C6: a numeric `todos` field leaves the tracked list
unchanged. -/
theorem c6_witness :
    (∀ ts, propOf (Json.obj [("todos", Json.num 5)]) "todos" ≠ some (Json.arr ts)) ∧
    (OpenCodeEngine.detectStepFromLine [⟨"1", "keep", Json.str "pending"⟩] "\x7b"
        (some (todoWriteLine "todowrite" (Json.obj [("todos", Json.num 5)])))).2 =
      [⟨"1", "keep", Json.str "pending"⟩] := by
  constructor
  · intro ts h
    simp [propOf, lookupField] at h
  · exact c6_todos_not_list_ignored [⟨"1", "keep", Json.str "pending"⟩] "\x7b" "todowrite"
      (Json.obj [("todos", Json.num 5)]) (Or.inl rfl)
      (fun ts h => by simp [propOf, lookupField] at h)

/-! Section: C7 -/

/-- Every line retained by the diff preview is truncated to the configured
70-character width. -/
theorem truncate70_length_le (s : String) : (OpenCodeEngine.truncate s 70).length ≤ 70 := by
  unfold OpenCodeEngine.truncate
  split
  · assumption
  · have h1 : (strTake s (70 - 3) ++ "...").length = (s.data.take 67 ++ "...".data).length := rfl
    rw [h1, List.length_append]
    have h2 : (s.data.take 67).length ≤ 67 := by
      rw [List.length_take]
      exact Nat.min_le_left _ _
    have h3 : ("...".data).length = 3 := rfl
    omega

/-- C7: `createDiff` returns `undefined` exactly when both contents are
empty; otherwise each side carries at most `maxLines` entries (the source
calls it with the default 4), taken from the start of the split content, and
no retained line exceeds 70 characters after truncation. -/
theorem c7_diff_bounds (fp o n : String) (m : Nat) :
    (OpenCodeEngine.createDiff fp o n m = none ↔ (o = "" ∧ n = "")) ∧
    (∀ d, OpenCodeEngine.createDiff fp o n m = some d →
      d.filePath = fp ∧
      (d.oldLines.getD []).length ≤ m ∧ (d.newLines.getD []).length ≤ m ∧
      (∀ l ∈ d.oldLines.getD [], l.length ≤ 70) ∧
      (∀ l ∈ d.newLines.getD [], l.length ≤ 70) ∧
      (o ≠ "" →
        d.oldLines = some (((splitChar '\n' o).take m).map (fun l => OpenCodeEngine.truncate l 70))) ∧
      (n ≠ "" →
        d.newLines = some (((splitChar '\n' n).take m).map (fun l => OpenCodeEngine.truncate l 70)))) := by
  have hlen : ∀ content : String,
      (((splitChar '\n' content).take m).map (fun l => OpenCodeEngine.truncate l 70)).length ≤ m := by
    intro content
    rw [List.length_map, List.length_take]
    exact Nat.min_le_left _ _
  have hmem : ∀ (content : String) (l : String),
      l ∈ ((splitChar '\n' content).take m).map (fun l => OpenCodeEngine.truncate l 70) →
      l.length ≤ 70 := by
    intro content l hl
    obtain ⟨l', -, rfl⟩ := List.mem_map.mp hl
    exact truncate70_length_le l'
  unfold OpenCodeEngine.createDiff
  by_cases hc : (n = "" ∧ o = "")
  · rw [if_pos hc]
    refine ⟨⟨fun _ => ⟨hc.2, hc.1⟩, fun _ => rfl⟩, fun d hd => absurd hd (by simp)⟩
  · rw [if_neg hc]
    constructor
    · constructor
      · intro h
        exact absurd h (by simp)
      · rintro ⟨ho, hn⟩
        exact absurd ⟨hn, ho⟩ hc
    · intro d hd
      obtain rfl := Option.some.inj hd
      refine ⟨rfl, ?_, ?_, ?_, ?_, fun ho => ?_, fun hn => ?_⟩
      · by_cases ho : o = ""
        · simp [ho]
        · simp only [if_neg ho, Option.getD_some]
          exact hlen o
      · by_cases hn : n = ""
        · simp [hn]
        · simp only [if_neg hn, Option.getD_some]
          exact hlen n
      · by_cases ho : o = ""
        · simp [ho]
        · simp only [if_neg ho, Option.getD_some]
          exact hmem o
      · by_cases hn : n = ""
        · simp [hn]
        · simp only [if_neg hn, Option.getD_some]
          exact hmem n
      · show (if o = "" then none else some _) = some _
        rw [if_neg ho]
      · show (if n = "" then none else some _) = some _
        rw [if_neg hn]

/-- Witness for C7 at a five-line old content with `maxLines = 4`. -/
theorem c7_witness :
    OpenCodeEngine.createDiff "f.ts" "l1\nl2\nl3\nl4\nl5" "x" 4 =
      some ⟨"f.ts", none, some ["l1", "l2", "l3", "l4"], some ["x"]⟩ ∧
    ((some ["l1", "l2", "l3", "l4"] : Option (List String)).getD []).length ≤ 4 ∧
    OpenCodeEngine.createDiff "f.ts" "" "" 4 = none := by
  refine ⟨rfl, ?_, (c7_diff_bounds "f.ts" "" "" 4).1.mpr ⟨rfl, rfl⟩⟩
  exact ((c7_diff_bounds "f.ts" "l1\nl2\nl3\nl4\nl5" "x" 4).2
    ⟨"f.ts", none, some ["l1", "l2", "l3", "l4"], some ["x"]⟩ rfl).2.1

/-! Section: C8 -/

/-- C8: for every execution exiting with a nonzero code whose output carries
no explicit error-type event, the aggregated result has `success = false` and
an error message synthesized by `formatCommandError` from the last 12
non-empty lines of the trimmed output; in particular, exit code 1 with
trailing output `build failed` yields an error containing `build failed`. -/
theorem c8_nonzero_exit_failure (parse : String → Option Json) (output : String) (exitCode : Int)
    (hexit : exitCode ≠ 0) (herr : checkForErrors parse output = none) :
    (OpenCodeEngine.aggregateResult parse output exitCode).success = false ∧
    (OpenCodeEngine.aggregateResult parse output exitCode).error =
      some (Json.str (formatCommandError exitCode output)) ∧
    (jsTrim output ≠ "" →
      formatCommandError exitCode output =
        "Command failed with exit code " ++ toString exitCode ++ ". Output:\n" ++
          joinWith "\n" (lastN 12 ((splitChar '\n' (jsTrim output)).filter (fun l => l ≠ "")))) ∧
    strContains (formatCommandError 1 "compiling\nbuild failed") "build failed" = true := by
  refine ⟨?_, ?_, fun hne => ?_, rfl⟩
  · unfold OpenCodeEngine.aggregateResult
    rw [herr]
    rcases hpo : OpenCodeEngine.parseOutput parse output with ⟨r, i, o2, c⟩
    simp [hexit]
  · unfold OpenCodeEngine.aggregateResult
    rw [herr]
    rcases hpo : OpenCodeEngine.parseOutput parse output with ⟨r, i, o2, c⟩
    simp [hexit]
  · simp [formatCommandError, hne]

/-- Witness for C8 at exit code 1 and output ending in `build failed`. -/
theorem c8_witness :
    ((1 : Int) ≠ 0) ∧
    checkForErrors (fun _ => none) "compiling\nbuild failed" = none ∧
    (OpenCodeEngine.aggregateResult (fun _ => none) "compiling\nbuild failed" 1).success = false ∧
    (OpenCodeEngine.aggregateResult (fun _ => none) "compiling\nbuild failed" 1).error =
      some (Json.str "Command failed with exit code 1. Output:\ncompiling\nbuild failed") := by
  refine ⟨by decide, rfl, ?_, ?_⟩
  · exact (c8_nonzero_exit_failure (fun _ => none) "compiling\nbuild failed" 1 (by decide) rfl).1
  · have h := (c8_nonzero_exit_failure (fun _ => none) "compiling\nbuild failed" 1
      (by decide) rfl).2.1
    rw [h]
    rfl

/-! Section: C9 -/

def c9Line : String :=
  "\x7b\"type\":\"tool_call\",\"part\":\x7b\"name\":\"read\",\"input\":\x7b\"file_path\":\"/a/b/Foo.ts\"\x7d\x7d\x7d"

def c9Json : Json :=
  Json.obj [("type", Json.str "tool_call"),
    ("part", Json.obj [("name", Json.str "read"),
      ("input", Json.obj [("file_path", Json.str "/a/b/Foo.ts")])])]

/-- C9 counterexample: for the claimed input the streaming classifier does
return a Reading-code event, but its `toolOutput` is the lower-cased raw path
`/a/b/foo.ts` (11 characters, untouched by the 60-character truncation), not
the literal `.../Foo.ts` of the claim — the original capitalisation does not
even survive. -/
theorem c9_counterexample :
    OpenCodeEngine.detectStepFromLine [] c9Line (some c9Json) =
      (some ⟨"Reading code", some "/a/b/foo.ts", none, none⟩, []) ∧
    some "/a/b/foo.ts" ≠ some ".../Foo.ts" ∧
    strContains "/a/b/foo.ts" "Foo.ts" = false := ⟨rfl, by decide, rfl⟩

/-- C9 as amended: the input line
`{type:"tool_call", part:{name:"read", input:{file_path:"/a/b/Foo.ts"}}}`
classifies to `{step:"Reading code", toolOutput:"/a/b/foo.ts"}` — the
lower-cased path passed through `truncatePath` unchanged — with the tracked
todo list attached when non-empty. -/
theorem c9_amended (todos : List TodoItem) :
    OpenCodeEngine.detectStepFromLine todos c9Line (some c9Json) =
      (some ⟨"Reading code", some (OpenCodeEngine.truncatePath "/a/b/foo.ts"), none,
        OpenCodeEngine.todosOpt todos⟩, todos) ∧
    OpenCodeEngine.truncatePath "/a/b/foo.ts" = "/a/b/foo.ts" := ⟨rfl, rfl⟩

/-! Section: C10 -/

/-- C10: every line that parses as a JSON object with type `step_start`
makes the OpenCode streaming classifier emit a Thinking event, carrying the
currently tracked todo list when it is non-empty, although the line has no
tool name and no command. -/
theorem c10_step_start_thinking (todos : List TodoItem) (line : String)
    (fs : List (String × Json))
    (hbrace : startsWithBrace (jsTrim line) = true)
    (hty : lookupField fs "type" = some (Json.str "step_start")) :
    OpenCodeEngine.detectStepFromLine todos line (some (Json.obj fs)) =
      (some ⟨"Thinking", none, none, OpenCodeEngine.todosOpt todos⟩, todos) := by
  unfold OpenCodeEngine.detectStepFromLine
  rw [if_pos hbrace]
  unfold OpenCodeEngine.detectStepFromLineCore
  simp [getProp_obj, hty, isStrVal, OpenCodeEngine.stepStartCheck, Bind.bind, Except.bind]

/-- Witness for C10 with a non-empty tracked todo list. -/
theorem c10_witness :
    OpenCodeEngine.detectStepFromLine [⟨"1", "x", Json.str "pending"⟩]
        "\x7b\"type\":\"step_start\"\x7d" (some (Json.obj [("type", Json.str "step_start")])) =
      (some ⟨"Thinking", none, none, some [⟨"1", "x", Json.str "pending"⟩]⟩,
        [⟨"1", "x", Json.str "pending"⟩]) := by
  have h := c10_step_start_thinking [⟨"1", "x", Json.str "pending"⟩]
    "\x7b\"type\":\"step_start\"\x7d" [("type", Json.str "step_start")] rfl rfl
  simpa [OpenCodeEngine.todosOpt] using h
